import Mathlib

/-!
Shallow embedding of the procmanage library (procmanage.c / procmanage.h).

The repository carries two revisions of procmanage.c in one source file.
The first revision (lines 1-352, called `RevA` below) factors the string
array code into `_process_array_*` helpers, calls `setsid` in the forked
child, does not insert the path into the argument list in `process_create`,
and has the `process_close` call inside `process_free` commented out.  The
second revision (lines 353-636, called `RevB` below) inlines the array
loops, has no `setsid`, inserts the path as the first argument in
`process_create`, and calls `process_close` from `process_free`.  Code that
is identical in both revisions (`process_close`, the parent side of
`process_open`, the array helpers' behaviour) is embedded once at top level.

A `char**` argument/environment vector is an `Option (List _)`: `none` is
the NULL pointer, `some l` a sentinel-terminated vector holding the
elements before the NULL sentinel.  File descriptors and pids are `Int`
(the unset sentinel is `-1`).  Calls into the OS (close, dup2, kill,
waitpid, execve, _exit) and the releases done by `free` are recorded as an
explicit event trace, and the OS results a call consumes (pipe fd pairs,
the fork return value) are explicit arguments.
-/

namespace Procmanage

/-- Observable calls the library makes: OS calls made by `process_close`
and by the child branch of `process_open`, and the releases performed by
`process_free` (path string, argument list, environment list, the handle
itself). -/
inductive Event where
  | closeFd (fd : Int)
  | dup2 (oldfd newfd : Int)
  | setsid
  | execve (path : Option String) (argv envp : Option (List String))
  | _exit (status : Int)
  | kill (pid : Int) (signal : Int)
  | waitpid (pid : Int) (flags : Int)
  | freePath (s : String)
  | freeArgv
  | freeEnvp
  | freeHandle
deriving DecidableEq

/-- The `struct Process` of procmanage.h: owned path string, argv and envp
vectors (NULL-able, hence `Option`), the three stream descriptors and the
pid, with `-1` as the unset sentinel. -/
structure Process where
  path : Option String
  argv : Option (List String)
  envp : Option (List String)
  in_ : Int
  out : Int
  err : Int
  pid : Int
deriving DecidableEq

/-- An owned C string at the heap level: the address of its allocation and
its character content.  Used by the `_process_array_*` / `_process_string_copy`
embeddings, where the claims speak about distinct storage. -/
structure CStr where
  addr : Nat
  content : String
deriving DecidableEq

/-- C `_process_array_count` (first revision, lines 33-38): walks the
vector until the NULL sentinel; a NULL vector counts as zero. -/
def _process_array_count : Option (List CStr) → Nat
  | none => 0
  | some l => l.length

/-- C `_process_array_clear` (first revision, lines 50-62): frees each
element up to the sentinel, frees the backing storage, and NULLs the
caller's variable, so the result is always the absent vector. -/
def _process_array_clear : Option (List CStr) → Option (List CStr) :=
  fun _ => none

/-- C `_process_string_copy` (first revision, lines 94-99): callocs
`strlen src + 1` zeroed bytes at a fresh address and memcpys the bytes of
`src` into them, producing a content-equal copy at a fresh address.
Allocation is modelled by a counter: the fresh block gets address `st` and
the counter moves to `st + 1`. -/
def _process_string_copy (st : Nat) (src : CStr) : Nat × CStr :=
  (st + 1, ⟨st, src.content⟩)

/-- C `_process_array_push` (first revision, lines 72-81): counts the
current elements, reallocs the backing storage to `count + 2` pointer
slots, copies `item` into the new slot via `_process_string_copy`, and
NULLs the last slot.  The result is the allocation counter, the new
element list, and the slot count passed to `realloc`. -/
def _process_array_push (st : Nat) (arr : Option (List CStr)) (item : CStr) :
    Nat × List CStr × Nat :=
  let arrc := _process_array_count arr
  let copied := _process_string_copy st item
  (copied.1, arr.getD [] ++ [copied.2], arrc + 2)

/-- A sequence of `_process_array_push` calls, returning the final
allocation counter, the final vector, and the list of slot counts the
successive `realloc` calls were given. -/
def _process_array_pushSeq :
    Nat → Option (List CStr) → List CStr → Nat × Option (List CStr) × List Nat
  | st, arr, [] => (st, arr, [])
  | st, arr, item :: rest =>
    let r := _process_array_push st arr item
    let r2 := _process_array_pushSeq r.1 (some r.2.1) rest
    (r2.1, r2.2.1, r.2.2 :: r2.2.2)

/-- Copies of `items` laid out at consecutive fresh addresses starting at
`st`: the closed form of what a `_process_array_push` sequence stores. -/
def freshCopies (st : Nat) : List CStr → List CStr
  | [] => []
  | item :: rest => ⟨st, item.content⟩ :: freshCopies (st + 1) rest

/-- Slot counts of the successive reallocs of a push sequence that starts
at element count `n`: the closed form of the sizes `_process_array_pushSeq`
records. -/
def reallocSlots (n : Nat) : List CStr → List Nat
  | [] => []
  | _ :: rest => (n + 2) :: reallocSlots (n + 1) rest

/-- C `process_add_arg` (lines 109-112 and 378-390, behaviourally equal):
appends a copy of `arg` to the handle's argument vector; pushing onto a
NULL vector yields a one-element vector.  Stated at the content level; the
storage of the copy is covered by `_process_array_push` above. -/
def process_add_arg (p : Process) (arg : String) : Process :=
  { p with argv := some (p.argv.getD [] ++ [arg]) }

/-- C `process_add_args` (first revision, lines 122-127): calls
`process_add_arg` for each entry of a NULL-terminated vector; a NULL
vector adds nothing.  The second revision inlines the same loop inside
`process_create`. -/
def process_add_args (p : Process) (args : Option (List String)) : Process :=
  (args.getD []).foldl process_add_arg p

/-- C `process_add_env` (lines 137-140 and 400-412): appends a copy of
`env` to the handle's environment vector. -/
def process_add_env (p : Process) (env : String) : Process :=
  { p with envp := some (p.envp.getD [] ++ [env]) }

/-- C `process_add_envs` (first revision, lines 150-155): calls
`process_add_env` for each entry of a NULL-terminated vector. -/
def process_add_envs (p : Process) (envs : Option (List String)) : Process :=
  (envs.getD []).foldl process_add_env p

/-- C `process_clear_argv` (lines 167-171 and 424-439): clears the
argument vector back to NULL (element frees are internal to
`_process_array_clear`). -/
def process_clear_argv (p : Process) : Process :=
  { p with argv := none }

/-- C `process_clear_envp` (lines 183-187 and 451-466): clears the
environment vector back to NULL. -/
def process_clear_envp (p : Process) : Process :=
  { p with envp := none }

/-- C `process_close` (lines 199-220, identical in both revisions): closes
each of the three stream descriptors that is not `-1` and resets it to
`-1`; if the pid is not `-1`, sends SIGKILL (signal 9), reaps with
`waitpid(pid, NULL, WNOHANG)` (flags 1), and resets the pid to `-1`.  The
result is the trace of OS calls made and the updated handle. -/
def process_close (p : Process) : List Event × Process :=
  let evs :=
    (if p.in_ ≠ -1 then [Event.closeFd p.in_] else []) ++
    (if p.out ≠ -1 then [Event.closeFd p.out] else []) ++
    (if p.err ≠ -1 then [Event.closeFd p.err] else []) ++
    (if p.pid ≠ -1 then [Event.kill p.pid 9, Event.waitpid p.pid 1] else [])
  (evs, { p with in_ := -1, out := -1, err := -1, pid := -1 })

/-- C `process_close` seen through a nullable handle pointer: the body
dereferences `p` immediately (line 201) with no NULL guard, so on a NULL
handle the call is undefined, modelled as `none`. -/
def process_close_nullable : Option Process → Option (List Event × Process)
  | none => none
  | some p => some (process_close p)

/-- Parent side of C `process_open` (lines 303-350 and 590-634, identical
in both revisions).  The OS results are explicit: `ipipe`, `opipe`,
`epipe` are the `(fd[0], fd[1])` = (read end, write end) pairs the three
`pipe` calls produce, and `forkRes` is what `fork` returns (`-1` failure,
`0` in the child, the child pid in the parent).  When `forkRes = 0` the
call is running in the child and never returns (`none` here); the child
branch is the `child_actions` trace of each revision.  Otherwise the
parent stores the fork result as the pid, stores the input pipe's write
end and the output and error pipes' read ends as the three streams, and
returns `1` if the pid is not `-1`, else `0`.  If the pid guard fails the
body is skipped and `0` is returned with the handle untouched. -/
def process_open (p : Process) (ipipe opipe epipe : Int × Int) (forkRes : Int) :
    Option (Int × Process) :=
  if p.pid = -1 then
    if forkRes = 0 then
      none
    else
      let q : Process :=
        { p with pid := forkRes, in_ := ipipe.2, out := opipe.1, err := epipe.1 }
      some (if q.pid ≠ -1 then 1 else 0, q)
  else
    some (0, p)

namespace RevA

/-- Child branch of `process_open`, first revision (lines 314-334): close
the unused pipe ends, `dup2` the used ends onto stdin/stdout/stderr
(0, 1, 2), close the now-redundant originals, call `setsid`, then `execve`
the handle's path with its argv and envp; if the `execve` fails
(`execFails`), `_exit(1)`. -/
def child_actions (ipipe opipe epipe : Int × Int) (p : Process)
    (execFails : Bool) : List Event :=
  [Event.closeFd ipipe.2, Event.closeFd opipe.1, Event.closeFd epipe.1,
   Event.dup2 ipipe.1 0, Event.dup2 opipe.2 1, Event.dup2 epipe.2 2,
   Event.closeFd ipipe.1, Event.closeFd opipe.2, Event.closeFd epipe.2,
   Event.setsid,
   Event.execve p.path p.argv p.envp] ++
  (if execFails then [Event._exit 1] else [])

/-- C `process_create`, first revision (lines 238-260): allocates a handle
with every field unset, copies `path` into it, then appends the caller's
argv and envp entries.  This revision does not insert `path` into the
argument list. -/
def process_create (path : String) (argv envp : Option (List String)) : Process :=
  let p : Process := ⟨some path, none, none, -1, -1, -1, -1⟩
  let p := process_add_args p argv
  process_add_envs p envp

/-- C `process_free`, first revision (lines 272-292): NULL guard (a NULL
handle does nothing), then — with the `process_close` call commented out —
frees the path if set, clears argv, clears envp, and frees the handle
itself. -/
def process_free : Option Process → List Event
  | none => []
  | some p =>
    (match p.path with
     | none => []
     | some s => [Event.freePath s]) ++
    [Event.freeArgv, Event.freeEnvp, Event.freeHandle]

end RevA

namespace RevB

/-- Child branch of `process_open`, second revision (lines 601-618): the
same pipe wiring as the first revision but with no `setsid` call before
the `execve`. -/
def child_actions (ipipe opipe epipe : Int × Int) (p : Process)
    (execFails : Bool) : List Event :=
  [Event.closeFd ipipe.2, Event.closeFd opipe.1, Event.closeFd epipe.1,
   Event.dup2 ipipe.1 0, Event.dup2 opipe.2 1, Event.dup2 epipe.2 2,
   Event.closeFd ipipe.1, Event.closeFd opipe.2, Event.closeFd epipe.2,
   Event.execve p.path p.argv p.envp] ++
  (if execFails then [Event._exit 1] else [])

/-- C `process_create`, second revision (lines 517-547): allocates a handle
with every field unset, copies `path` into it, inserts `path` as the first
argument, then appends the caller's argv and envp entries. -/
def process_create (path : String) (argv envp : Option (List String)) : Process :=
  let p : Process := ⟨some path, none, none, -1, -1, -1, -1⟩
  let p := process_add_arg p path
  let p := process_add_args p argv
  process_add_envs p envp

/-- C `process_free`, second revision (lines 559-579): NULL guard, then
`process_close` first (killing and reaping a still-set pid and closing the
streams), then free the path if set, clear argv, clear envp, and free the
handle itself. -/
def process_free : Option Process → List Event
  | none => []
  | some p =>
    let c := process_close p
    c.1 ++
    (match c.2.path with
     | none => []
     | some s => [Event.freePath s]) ++
    [Event.freeArgv, Event.freeEnvp, Event.freeHandle]

end RevB

/-- Handle states reachable through the library's API: creation by either
revision, argument/environment appends, a launch attempt with OS-realistic
results (pipe descriptors are non-negative, `fork` returns `-1` or a
positive pid, and the call returns — so it is not the child branch), and
close. -/
inductive Reachable : Process → Prop
  | createA (path : String) (argv envp : Option (List String)) :
      Reachable (RevA.process_create path argv envp)
  | createB (path : String) (argv envp : Option (List String)) :
      Reachable (RevB.process_create path argv envp)
  | addArg (p : Process) (a : String) :
      Reachable p → Reachable (process_add_arg p a)
  | addEnv (p : Process) (e : String) :
      Reachable p → Reachable (process_add_env p e)
  | openStep (p : Process) (ipipe opipe epipe : Int × Int) (forkRes : Int)
      (r : Int × Process) :
      Reachable p →
      0 ≤ ipipe.1 → 0 ≤ ipipe.2 → 0 ≤ opipe.1 → 0 ≤ opipe.2 →
      0 ≤ epipe.1 → 0 ≤ epipe.2 →
      (forkRes = -1 ∨ 0 < forkRes) →
      process_open p ipipe opipe epipe forkRes = some r →
      Reachable r.2
  | closeStep (p : Process) :
      Reachable p → Reachable (process_close p).2

/-- A launched handle used as a concrete input in several statements: path
`"p"`, argv `["p"]`, streams 3, 4, 6 and pid 5. -/
def sampleRun : Process :=
  ⟨some "p", some ["p"], none, 3, 4, 6, 5⟩

/-- Appending arguments appends exactly the given strings, in order, to the
content of the argument vector. -/
theorem foldl_add_arg_argv (l : List String) : ∀ p : Process,
    ((l.foldl process_add_arg p).argv).getD [] = p.argv.getD [] ++ l := by
  induction l with
  | nil => intro p; simp
  | cons a t ih =>
    intro p
    simp [List.foldl_cons, ih, process_add_arg]

/-- Appending environment entries leaves the argument vector untouched. -/
theorem foldl_add_env_argv (l : List String) : ∀ p : Process,
    (l.foldl process_add_env p).argv = p.argv := by
  induction l with
  | nil => intro p; rfl
  | cons a t ih =>
    intro p
    simp [List.foldl_cons, ih, process_add_env]

/-- Claim C4: each revision of `process_create` applies one argument policy
uniformly, before any user-supplied entries: the first revision stores
exactly the caller's argv entries in order, the second revision stores the
path followed by the caller's argv entries in order. -/
theorem process_create_argv_policy (path : String)
    (argv envp : Option (List String)) :
    (RevA.process_create path argv envp).argv.getD [] = argv.getD [] ∧
    (RevB.process_create path argv envp).argv.getD [] = path :: argv.getD [] := by
  constructor
  · simp [RevA.process_create, process_add_envs, process_add_args,
      foldl_add_env_argv, foldl_add_arg_argv]
  · simp [RevB.process_create, process_add_envs, process_add_args,
      process_add_arg, foldl_add_env_argv, foldl_add_arg_argv]

/-- Claim C6: launching a handle whose pid is already set is a no-op that
returns the failure flag 0 and leaves the handle, its pid and its three
streams exactly as they were. -/
theorem process_open_already_launched_noop (p : Process)
    (ipipe opipe epipe : Int × Int) (forkRes : Int) (h : p.pid ≠ -1) :
    process_open p ipipe opipe epipe forkRes = some (0, p) := by
  simp [process_open, h]

/-- Claim C6, witness: the already-launched handle `sampleRun` (pid 5). -/
theorem process_open_already_launched_noop_witness :
    sampleRun.pid ≠ -1 ∧
    process_open sampleRun (0, 1) (2, 3) (4, 5) 42 = some (0, sampleRun) :=
  ⟨by decide,
   process_open_already_launched_noop sampleRun (0, 1) (2, 3) (4, 5) 42 (by decide)⟩

/-- Claim C1 (code bug): launching a fresh handle when `fork` fails.  With
pipe pairs (3,4), (5,6), (7,8) and fork result -1, `process_open` returns
the failure flag 0 and the pid stays -1, but the else branch runs anyway
and stores the parent pipe ends 4, 5, 7 into the three stream fields, so
the streams do not stay unset and the handle is not back in its pre-launch
state. -/
theorem process_open_fork_failure_sets_streams :
    process_open (RevA.process_create "p" none none) (3, 4) (5, 6) (7, 8) (-1) =
      some (0, ⟨some "p", none, none, 4, 5, 7, -1⟩) := rfl

/-- Claim C2 (code bug): a state with the pid unset but all three streams
set is reachable through the API — create a handle, then launch it with
`fork` failing — so the streams and the pid are not valid together or
unset together in every reachable state. -/
theorem reachable_streams_set_pid_unset :
    ∃ s : Process,
      Reachable s ∧ s.pid = -1 ∧ s.in_ ≠ -1 ∧ s.out ≠ -1 ∧ s.err ≠ -1 := by
  refine ⟨⟨some "p", none, none, 4, 5, 7, -1⟩, ?_, rfl, by decide, by decide, by decide⟩
  exact Reachable.openStep (RevA.process_create "p" none none)
    (3, 4) (5, 6) (7, 8) (-1) (0, ⟨some "p", none, none, 4, 5, 7, -1⟩)
    (Reachable.createA "p" none none)
    (by decide) (by decide) (by decide) (by decide) (by decide) (by decide)
    (Or.inl rfl) rfl

/-- Claim C3 (code bug): `process_free` on the launched handle `sampleRun`
(pid 5, streams 3, 4, 6).  The first revision's free — the one whose
`process_close` call is commented out — performs no kill, no reap and no
stream close, so a running child leaks; the second revision's free kills
and reaps pid 5 and closes stream 3 first.  Both release the path, the
argument list, the environment list and the handle itself, and both are a
safe no-op on a NULL handle. -/
theorem process_free_close_divergence :
    Event.kill 5 9 ∉ RevA.process_free (some sampleRun) ∧
    Event.waitpid 5 1 ∉ RevA.process_free (some sampleRun) ∧
    Event.closeFd 3 ∉ RevA.process_free (some sampleRun) ∧
    Event.kill 5 9 ∈ RevB.process_free (some sampleRun) ∧
    Event.waitpid 5 1 ∈ RevB.process_free (some sampleRun) ∧
    Event.closeFd 3 ∈ RevB.process_free (some sampleRun) ∧
    Event.freePath "p" ∈ RevA.process_free (some sampleRun) ∧
    Event.freeArgv ∈ RevA.process_free (some sampleRun) ∧
    Event.freeEnvp ∈ RevA.process_free (some sampleRun) ∧
    Event.freeHandle ∈ RevA.process_free (some sampleRun) ∧
    Event.freePath "p" ∈ RevB.process_free (some sampleRun) ∧
    Event.freeHandle ∈ RevB.process_free (some sampleRun) ∧
    RevA.process_free none = [] ∧ RevB.process_free none = [] := by
  decide

/-- Claim C7: `process_close` resets all three streams and the pid to
unset; it emits a close of each stream that was open, and a SIGKILL plus a
WNOHANG reap when the pid was set; on a handle with nothing set it makes
no OS call; and closing the result again makes no OS call and leaves the
state fixed. -/
theorem process_close_spec (p : Process) :
    (process_close p).2.in_ = -1 ∧ (process_close p).2.out = -1 ∧
    (process_close p).2.err = -1 ∧ (process_close p).2.pid = -1 ∧
    (p.in_ ≠ -1 → Event.closeFd p.in_ ∈ (process_close p).1) ∧
    (p.out ≠ -1 → Event.closeFd p.out ∈ (process_close p).1) ∧
    (p.err ≠ -1 → Event.closeFd p.err ∈ (process_close p).1) ∧
    (p.pid ≠ -1 → Event.kill p.pid 9 ∈ (process_close p).1 ∧
      Event.waitpid p.pid 1 ∈ (process_close p).1) ∧
    (p.in_ = -1 → p.out = -1 → p.err = -1 → p.pid = -1 →
      (process_close p).1 = []) ∧
    process_close (process_close p).2 = ([], (process_close p).2) := by
  by_cases h1 : p.in_ = -1 <;> by_cases h2 : p.out = -1 <;>
    by_cases h3 : p.err = -1 <;> by_cases h4 : p.pid = -1 <;>
      simp_all [process_close]

/-- Claim C9: clearing a (possibly absent) vector yields the absent
vector, whose count is 0; clear is idempotent and a safe no-op on the
absent vector; the Process-level clears reset argv and envp to absent and
are idempotent. -/
theorem clear_resets_and_idempotent (arr : Option (List CStr)) (p : Process) :
    _process_array_count (_process_array_clear arr) = 0 ∧
    _process_array_clear (_process_array_clear arr) = _process_array_clear arr ∧
    _process_array_clear none = none ∧
    (process_clear_argv p).argv = none ∧
    (process_clear_envp p).envp = none ∧
    process_clear_argv (process_clear_argv p) = process_clear_argv p ∧
    process_clear_envp (process_clear_envp p) = process_clear_envp p :=
  ⟨rfl, rfl, rfl, rfl, rfl, rfl, rfl⟩

/-- Claim C5, counterexample: in the second revision's child branch there
is no `setsid` step at all, at the concrete pipe pairs (0,1), (2,3), (4,5)
and the handle `sampleRun`, so the child of that revision does not detach
into a new session. -/
theorem child_actions_revB_no_setsid :
    Event.setsid ∉ RevB.child_actions (0, 1) (2, 3) (4, 5) sampleRun true := by
  decide

/-- Claim C5 as amended: in the first revision's child branch, `setsid`
occurs exactly once, after the three `dup2` calls that wire the pipe ends
onto stdin/stdout/stderr and immediately before the `execve`; and when the
`execve` fails the trace ends with `_exit 1` — a nonzero status, with no
library code after it.  The second revision's child branch contains no
`setsid` but has the same `execve`-then-`_exit 1` tail. -/
theorem child_actions_setsid_policy (ipipe opipe epipe : Int × Int)
    (p : Process) :
    (∃ pre,
      RevA.child_actions ipipe opipe epipe p true =
        pre ++ [Event.setsid, Event.execve p.path p.argv p.envp,
          Event._exit 1] ∧
      Event.dup2 ipipe.1 0 ∈ pre ∧ Event.dup2 opipe.2 1 ∈ pre ∧
      Event.dup2 epipe.2 2 ∈ pre ∧ Event.setsid ∉ pre) ∧
    Event.setsid ∉ RevB.child_actions ipipe opipe epipe p true ∧
    (∃ pre, RevB.child_actions ipipe opipe epipe p true =
      pre ++ [Event.execve p.path p.argv p.envp, Event._exit 1]) := by
  refine ⟨⟨[Event.closeFd ipipe.2, Event.closeFd opipe.1, Event.closeFd epipe.1,
      Event.dup2 ipipe.1 0, Event.dup2 opipe.2 1, Event.dup2 epipe.2 2,
      Event.closeFd ipipe.1, Event.closeFd opipe.2, Event.closeFd epipe.2],
      ?_, ?_, ?_, ?_, ?_⟩, ?_,
    ⟨[Event.closeFd ipipe.2, Event.closeFd opipe.1, Event.closeFd epipe.1,
      Event.dup2 ipipe.1 0, Event.dup2 opipe.2 1, Event.dup2 epipe.2 2,
      Event.closeFd ipipe.1, Event.closeFd opipe.2, Event.closeFd epipe.2],
      ?_⟩⟩ <;>
    simp [RevA.child_actions, RevB.child_actions]

/-- A push sequence appended to a non-NULL vector, in closed form: the
allocation counter advances once per item, the copies land at consecutive
fresh addresses, and the successive reallocs get slot counts starting at
the old length plus two. -/
theorem pushSeq_some (items : List CStr) : ∀ (st : Nat) (l : List CStr),
    _process_array_pushSeq st (some l) items =
      (st + items.length, some (l ++ freshCopies st items),
        reallocSlots l.length items) := by
  induction items with
  | nil => intro st l; simp [_process_array_pushSeq, freshCopies, reallocSlots]
  | cons item rest ih =>
    intro st l
    simp only [_process_array_pushSeq, _process_array_push,
      _process_array_count, _process_string_copy, freshCopies, reallocSlots, ih]
    refine Prod.ext ?_ (Prod.ext ?_ ?_) <;>
      simp [List.length_cons, List.length_append]
    · omega

/-- A push sequence starting from the NULL vector, in closed form, for a
nonempty item list (for the empty list the vector simply stays NULL). -/
theorem pushSeq_none (items : List CStr) (st : Nat) (h : items ≠ []) :
    _process_array_pushSeq st none items =
      (st + items.length, some (freshCopies st items),
        reallocSlots 0 items) := by
  cases items with
  | nil => exact absurd rfl h
  | cons item rest =>
    simp only [_process_array_pushSeq, _process_array_push,
      _process_array_count, _process_string_copy, pushSeq_some,
      freshCopies, reallocSlots]
    refine Prod.ext ?_ (Prod.ext ?_ ?_) <;> simp
    omega

/-- The copies a push sequence stores are as long as the item list. -/
theorem freshCopies_length (items : List CStr) : ∀ st : Nat,
    (freshCopies st items).length = items.length := by
  induction items with
  | nil => intro st; rfl
  | cons item rest ih => intro st; simp [freshCopies, ih]

/-- When the allocation counter starts above every caller address, each
stored copy is content-equal to its original and lives at a different
address. -/
theorem freshCopies_forall₂ (items : List CStr) : ∀ st : Nat,
    (∀ it ∈ items, it.addr < st) →
    List.Forall₂ (fun stored orig =>
      stored.content = orig.content ∧ stored.addr ≠ orig.addr)
      (freshCopies st items) items := by
  induction items with
  | nil => intro st _; exact List.Forall₂.nil
  | cons item rest ih =>
    intro st h
    refine List.Forall₂.cons ⟨rfl, ?_⟩ (ih (st + 1) ?_)
    · have hlt := h item (List.mem_cons_self _ _)
      simp only [ne_eq]
      omega
    · intro it hit
      have hlt := h it (List.mem_cons_of_mem _ hit)
      omega

/-- Slot counts of the reallocs, as a range: starting at element count `n`,
the k-th realloc gets `n + k + 2` slots. -/
theorem reallocSlots_eq (items : List CStr) : ∀ n : Nat,
    reallocSlots n items = (List.range items.length).map (fun k => n + k + 2) := by
  induction items with
  | nil => intro n; simp [reallocSlots]
  | cons item rest ih =>
    intro n
    have harith : (fun k => n + 1 + k + 2) = fun k : Nat => n + (k + 1) + 2 := by
      funext k; omega
    simp [reallocSlots, ih, List.range_succ_eq_map, List.map_map,
      Function.comp, harith]

/-- Claim C8: a sequence of N pushes starting from the absent vector.  The
count afterwards is N; each stored element is a content-equal copy of the
corresponding item at an address distinct from the item's own (given that
the allocation counter starts above every caller address); and the k-th
push passed `realloc` exactly k + 2 pointer slots — the old k elements,
the new element, and the NULL sentinel. -/
theorem array_push_sequence_spec (items : List CStr) (st : Nat)
    (h : ∀ it ∈ items, it.addr < st) :
    _process_array_count (_process_array_pushSeq st none items).2.1 =
      items.length ∧
    List.Forall₂ (fun stored orig =>
      stored.content = orig.content ∧ stored.addr ≠ orig.addr)
      ((_process_array_pushSeq st none items).2.1.getD []) items ∧
    (_process_array_pushSeq st none items).2.2 =
      (List.range items.length).map (fun k => k + 2) := by
  cases hi : items with
  | nil =>
    subst hi
    exact ⟨rfl, List.Forall₂.nil, rfl⟩
  | cons item rest =>
    subst hi
    rw [pushSeq_none _ _ (List.cons_ne_nil _ _)]
    refine ⟨?_, ?_, ?_⟩
    · simp [_process_array_count, freshCopies_length]
    · simpa using freshCopies_forall₂ _ st h
    · have := reallocSlots_eq (item :: rest) 0
      simpa using this

/-- Claim C8, witness: pushing two items whose addresses 0 and 1 lie below
the starting allocation counter 2. -/
theorem array_push_sequence_spec_witness :
    (∀ it ∈ [(⟨0, "a"⟩ : CStr), ⟨1, "b"⟩], it.addr < 2) ∧
    (_process_array_count
        (_process_array_pushSeq 2 none [(⟨0, "a"⟩ : CStr), ⟨1, "b"⟩]).2.1 = 2 ∧
      List.Forall₂ (fun stored orig =>
        stored.content = orig.content ∧ stored.addr ≠ orig.addr)
        ((_process_array_pushSeq 2 none
          [(⟨0, "a"⟩ : CStr), ⟨1, "b"⟩]).2.1.getD [])
        [(⟨0, "a"⟩ : CStr), ⟨1, "b"⟩] ∧
      (_process_array_pushSeq 2 none [(⟨0, "a"⟩ : CStr), ⟨1, "b"⟩]).2.2 =
        (List.range 2).map (fun k => k + 2)) :=
  ⟨by decide, array_push_sequence_spec [⟨0, "a"⟩, ⟨1, "b"⟩] 2 (by decide)⟩

/-- Claim C10: the nullable-pointer view of `process_close` is undefined at
the NULL handle — its body dereferences the handle with no guard — and
defined at every non-NULL handle, while both revisions of `process_free`
guard against NULL and treat it as a safe no-op. -/
theorem close_null_undefined_free_null_noop :
    process_close_nullable none = none ∧
    (∀ p : Process, (process_close_nullable (some p)).isSome = true) ∧
    RevA.process_free none = [] ∧ RevB.process_free none = [] :=
  ⟨rfl, fun _ => rfl, rfl, rfl⟩

end Procmanage
